import Mathlib

/-!
Shallow embedding of the sig_chain provenance-graph chaincode.

The repository holds two generations of the graph engine.  GraphV2 models the
variant whose record type is a plain Node with an inline Data field
(src/unnamed/part_002); GraphV1 models the variant built on NodeHeader and the
NodeI interface (src/unnamed/part_001).  TokenHL models the single-consumption
token ledger (src/token/pkg/hyperledger/main.go) and AssetDomain models the
Material domain layer that drives GraphV1 (the asset package bundled with
src/main.go).

External primitives (JSON marshalling, SHA-512, public-key parsing and
RSA-PKCS1v15 verification) are passed as explicit function parameters: the
engine only ever feeds their outputs into string comparisons, so an arbitrary
instantiation exercises the control flow faithfully.  Go's hash.Hash.Sum(b)
appends the digest of the data written so far (none, for a fresh hasher) to its
argument b; hasherSum mirrors that behaviour, which differs from the one-shot
digest sha512.Sum512.  The world state is an association list from keys to
records, and every PutState call is additionally recorded, in order, in a
write log so that frame and ordering properties can be stated.
-/

/-- Key-value world state together with the ordered log of PutState calls. -/
structure Ledger (ν : Type) where
  store : List (String × ν)
  writes : List (String × ν)
deriving DecidableEq, Repr

/-- GetState on the mock world state: first binding of the key wins. -/
def storeGet {ν : Type} : List (String × ν) → String → Option ν
  | [], _ => none
  | (k, v) :: rest, key => if k = key then some v else storeGet rest key

/-- PutState on the mock world state: overwrite the binding, else append. -/
def storePut {ν : Type} : List (String × ν) → String → ν → List (String × ν)
  | [], key, v => [(key, v)]
  | (k, w) :: rest, key, v =>
    if k = key then (key, v) :: rest else (k, w) :: storePut rest key v

/-- A PutState call: update the store and append to the write log. -/
def Ledger.put {ν : Type} (led : Ledger ν) (key : String) (v : ν) : Ledger ν :=
  ⟨storePut led.store key v, led.writes ++ [(key, v)]⟩

/-- Insertion into a Go map-used-as-set (map from hashed id to bool). -/
def insertSet (x : String) (s : List String) : List String :=
  if x ∈ s then s else s ++ [x]

/-- Go: hasher := sha512.New(); hasher.Sum([]byte(s)).  Sum appends the digest
of the data written so far (nothing) to its argument, so the result is the raw
input s followed by the digest of the empty string, not the digest of s. -/
def hasherSum (sha : String → String) (s : String) : String :=
  s ++ sha ""

/-- Pointwise zip of the three parallel argument arrays of the batch
operations; the engine only reaches the loop when the lengths are equal. -/
def zip3 {α β γ : Type} : List α → List β → List γ → List (α × β × γ)
  | x :: xs, y :: ys, z :: zs => (x, y, z) :: zip3 xs ys zs
  | _, _, _ => []

/-- Error kinds surfaced by the graph engine and the Material domain layer,
one constructor per distinct error site in the source. -/
inductive GErr where
  | notFound (id : String)
  | alreadyExists
  | oldNodeNotFound (id : String)
  | newNodeAlreadyExists (id : String)
  | invalidKey
  | verificationFailure
  | nodeIsAlreadyFinalized
  | nextNodeIsAlreadyFinalized
  | nodeFinalized
  | mismatchDataAndNodeIds
  | mismatchDataAndOwnerKey
  | childAlreadyExists
  | quantityParseError
  | timestampMismatch
deriving DecidableEq, Repr

namespace GraphV2

/-- The record type of the part_002 engine: Data inline, no signature field. -/
structure Node (α : Type) where
  Id : String
  IsFinalized : Bool
  Data : α
  NextNodeHashedIds : List String
  PreviousNodeHashedIds : List String
  OwnerPublicKey : String
deriving DecidableEq, Repr

/-- Node.Verify: marshal the node as it stands (this variant has no signature
field to blank), hash the serialization, parse the owner public key and check
the RSA-PKCS1v15 signature.  Key-parse and type-assertion failures are folded
into invalidKey. -/
def NodeVerify {α : Type} (marshal : Node α → String) (parseKey : String → Option String)
    (rsaVerify : String → String → String → Bool) (sha : String → String)
    (n : Node α) (iSignature : String) : Option GErr :=
  match parseKey n.OwnerPublicKey with
  | none => some .invalidKey
  | some key =>
    if rsaVerify key (sha (marshal n)) iSignature then none else some .verificationFailure

/-- GraphContract.FinalizeNode (part_002): load, set IsFinalized, verify the
supplied signature over the updated node, write back.  There is no check that
the node was not already finalized. -/
def FinalizeNode {α : Type} (marshal : Node α → String) (parseKey : String → Option String)
    (rsaVerify : String → String → String → Bool) (sha : String → String)
    (led : Ledger (Node α)) (iNodeId iSignature : String) : Ledger (Node α) × Option GErr :=
  match storeGet led.store iNodeId with
  | none => (led, some (.notFound iNodeId))
  | some thisNode =>
    let thisNode2 := { thisNode with IsFinalized := true }
    match NodeVerify marshal parseKey rsaVerify sha thisNode2 iSignature with
    | some e => (led, some e)
    | none => (led.put iNodeId thisNode2, none)

/-- GraphContract.CreateEdge (part_002): load both nodes, add the link-set
entries produced by hasher.Sum (the raw referenced id followed by the digest of
the empty string), verify both signatures over the mutated nodes and write
both.  There is no finalization check in this variant. -/
def CreateEdge {α : Type} (marshal : Node α → String) (parseKey : String → Option String)
    (rsaVerify : String → String → String → Bool) (sha : String → String)
    (led : Ledger (Node α)) (iNodeId iNextNodeId iSignature iNextNodeSignature : String) :
    Ledger (Node α) × Option GErr :=
  match storeGet led.store iNodeId with
  | none => (led, some (.notFound iNodeId))
  | some thisNode =>
  match storeGet led.store iNextNodeId with
  | none => (led, some (.notFound iNextNodeId))
  | some nextNode =>
    let thisNode2 := { thisNode with
      NextNodeHashedIds := insertSet (hasherSum sha iNextNodeId) thisNode.NextNodeHashedIds }
    let nextNode2 := { nextNode with
      PreviousNodeHashedIds := insertSet (hasherSum sha iNodeId) nextNode.PreviousNodeHashedIds }
    match NodeVerify marshal parseKey rsaVerify sha thisNode2 iSignature with
    | some e => (led, some e)
    | none =>
    match NodeVerify marshal parseKey rsaVerify sha nextNode2 iNextNodeSignature with
    | some e => (led, some e)
    | none => ((led.put iNodeId thisNode2).put iNextNodeId nextNode2, none)

/-- The child-creation loop of CreateReferencedNodesAndFinalize: for each new
id / data / owner-key triple in order, fail if the id exists, otherwise write a
fresh unfinalized node whose PreviousNodeHashedIds is the singleton of the
parent digest. -/
def createChildren {α : Type} (led : Ledger (Node α)) (oldNodeHash : String) :
    List (String × α × String) → Ledger (Node α) × Option GErr
  | [] => (led, none)
  | (id, data, key) :: rest =>
    if (storeGet led.store id).isSome then (led, some .childAlreadyExists)
    else
      createChildren (led.put id ⟨id, false, data, [], [oldNodeHash], key⟩) oldNodeHash rest

/-- GraphContract.CreateReferencedNodesAndFinalize (part_002): load the parent,
check the parallel array lengths, reject a finalized parent, add the one-shot
digest of every child id to the parent's NextNodeHashedIds, finalize the
parent, verify, write the parent, then run the child loop.  The iNewPublicKey
argument (child signatures) is accepted but never used by the source. -/
def CreateReferencedNodesAndFinalize {α : Type} (marshal : Node α → String)
    (parseKey : String → Option String) (rsaVerify : String → String → String → Bool)
    (sha : String → String) (led : Ledger (Node α)) (iNodeId : String)
    (iNewNodeIds : List String) (iData : List α) (iOwnerPublicKey : List String)
    (iSignature : String) (iNewPublicKey : List String) : Ledger (Node α) × Option GErr :=
  match storeGet led.store iNodeId with
  | none => (led, some (.notFound iNodeId))
  | some node =>
  if iNewNodeIds.length ≠ iData.length then (led, some .mismatchDataAndNodeIds)
  else if iData.length ≠ iOwnerPublicKey.length then (led, some .mismatchDataAndOwnerKey)
  else if node.IsFinalized then (led, some .nodeFinalized)
  else
    let node2 := { node with
      NextNodeHashedIds := iNewNodeIds.foldl (fun s id => insertSet (sha id) s) node.NextNodeHashedIds,
      IsFinalized := true }
    match NodeVerify marshal parseKey rsaVerify sha node2 iSignature with
    | some e => (led, some e)
    | none =>
      createChildren (led.put node2.Id node2) (sha node2.Id) (zip3 iNewNodeIds iData iOwnerPublicKey)

/-- GraphContract.TransferNodeOwnership (part_002).  In the source, newNode is
a pointer copy of oldNode, so every update below lands on one shared record;
both verification calls pass iSignature, and the function returns without a
single PutState, so the store is never touched. -/
def TransferNodeOwnership {α : Type} (marshal : Node α → String)
    (parseKey : String → Option String) (rsaVerify : String → String → String → Bool)
    (sha : String → String) (led : Ledger (Node α))
    (iNodeId iNewNodeId iNewOwnerPublicKey iSignature iNewNodeSignature : String) :
    Ledger (Node α) × Option GErr :=
  match storeGet led.store iNodeId with
  | none => (led, some (.notFound iNodeId))
  | some oldNode =>
  if (storeGet led.store iNewNodeId).isSome then (led, some (.newNodeAlreadyExists iNewNodeId))
  else
    let node1 := { oldNode with OwnerPublicKey := iNewOwnerPublicKey }
    let node2 := { node1 with
      NextNodeHashedIds := insertSet (hasherSum sha iNewNodeId) node1.NextNodeHashedIds,
      IsFinalized := true }
    let node3 := { node2 with
      PreviousNodeHashedIds := insertSet (hasherSum sha iNodeId) node2.PreviousNodeHashedIds }
    match NodeVerify marshal parseKey rsaVerify sha node3 iSignature with
    | some e => (led, some e)
    | none =>
    match NodeVerify marshal parseKey rsaVerify sha node3 iSignature with
    | some e => (led, some e)
    | none => (led, none)

end GraphV2

namespace GraphV1

/-- The header shared by every node of the part_001 engine. -/
structure NodeHeader where
  Id : String
  IsFinalized : Bool
  PreviousNodeHashedIds : List String
  NextNodeHashedIds : List String
  OwnerPublicKey : String
  CreatedTime : Int
  Signature : String
deriving DecidableEq, Repr

/-- A NodeI value: the header plus the remaining domain payload of the
concrete struct implementing the interface. -/
structure GNode (α : Type) where
  header : NodeHeader
  payload : α
deriving DecidableEq, Repr

def MakeNodeHeader (iId : String) (iIsFinalized : Bool)
    (iPreviousNodeHashedIds iNextNodeHashedIds : List String)
    (iOwnerPublicKey : String) (iCreatedTime : Int) (iSignature : String) : NodeHeader :=
  ⟨iId, iIsFinalized, iPreviousNodeHashedIds, iNextNodeHashedIds,
    iOwnerPublicKey, iCreatedTime, iSignature⟩

/-- GraphContract.Verify over the NodeI interface (part_001): blank the
Signature field for canonicalisation, hash and check, and restore the original
header before returning (the deferred SetHeader in the source runs on every
path).  The returned node is the node as Verify leaves it behind. -/
def Verify {α : Type} (marshal : GNode α → String) (parseKey : String → Option String)
    (rsaVerify : String → String → String → Bool) (sha : String → String)
    (iSignature : String) (iNode : GNode α) : GNode α × Option GErr :=
  let originalHeader := iNode.header
  let working : GNode α := { iNode with header := { iNode.header with Signature := "" } }
  let hash := sha (marshal working)
  let restored : GNode α := { working with header := originalHeader }
  match parseKey working.header.OwnerPublicKey with
  | none => (restored, some .invalidKey)
  | some key =>
    if rsaVerify key hash iSignature then (restored, none)
    else (restored, some .verificationFailure)

/-- GraphContract.CreateNode (part_001): reject an existing id, verify the
signature carried in the node's own header, write the node. -/
def CreateNode {α : Type} (marshal : GNode α → String) (parseKey : String → Option String)
    (rsaVerify : String → String → String → Bool) (sha : String → String)
    (led : Ledger (GNode α)) (iNode : GNode α) : Ledger (GNode α) × Option GErr :=
  if (storeGet led.store iNode.header.Id).isSome then (led, some .alreadyExists)
  else
    match (Verify marshal parseKey rsaVerify sha iNode.header.Signature iNode).2 with
    | some e => (led, some e)
    | none => (led.put iNode.header.Id iNode, none)

/-- GraphContract.CreateEdge (part_001): the placeholder NodeI arguments of
the source are overwritten by GetNode, so the loaded records are used here.
Both endpoints are rejected when already finalized; the link-set entries are
produced by hasher.Sum and therefore carry the raw referenced id. -/
def CreateEdge {α : Type} (marshal : GNode α → String) (parseKey : String → Option String)
    (rsaVerify : String → String → String → Bool) (sha : String → String)
    (led : Ledger (GNode α)) (iNodeId iNewSignature iNextNodeId iNextNodeNewSignature : String) :
    Ledger (GNode α) × Option GErr :=
  match storeGet led.store iNodeId with
  | none => (led, some (.notFound iNodeId))
  | some node =>
  if node.header.IsFinalized then (led, some .nodeIsAlreadyFinalized)
  else
  match storeGet led.store iNextNodeId with
  | none => (led, some (.notFound iNextNodeId))
  | some nextNode =>
  if nextNode.header.IsFinalized then (led, some .nextNodeIsAlreadyFinalized)
  else
    let node2 := { node with header := { node.header with
      NextNodeHashedIds := insertSet (hasherSum sha iNextNodeId) node.header.NextNodeHashedIds } }
    let nextNode2 := { nextNode with header := { nextNode.header with
      PreviousNodeHashedIds := insertSet (hasherSum sha iNodeId) nextNode.header.PreviousNodeHashedIds } }
    match (Verify marshal parseKey rsaVerify sha iNewSignature node2).2 with
    | some e => (led, some e)
    | none =>
    match (Verify marshal parseKey rsaVerify sha iNextNodeNewSignature nextNode2).2 with
    | some e => (led, some e)
    | none => ((led.put iNodeId node2).put iNextNodeId nextNode2, none)

/-- GraphContract.TransferNodeOwnership (part_001).  The source never reloads
the node: iNode is the caller-supplied record.  newNode and oldNode are both
the very interface value iNode, and the link maps inside every header copy are
shared, so the successive header updates of the source all land on the same
single record, modelled here by sequential updates of one value; that merged
record is then verified twice and written under both the old and the new id
(old first). -/
def TransferNodeOwnership {α : Type} (marshal : GNode α → String)
    (parseKey : String → Option String) (rsaVerify : String → String → String → Bool)
    (sha : String → String) (led : Ledger (GNode α)) (iNodeId : String) (iNode : GNode α)
    (iNewNodeId : String) (iTransferTime : Int)
    (iNewOwnerPublicKey iNewSignature iNewNodeSignature : String) :
    Ledger (GNode α) × Option GErr :=
  if (storeGet led.store iNodeId).isNone then (led, some (.oldNodeNotFound iNodeId))
  else if (storeGet led.store iNewNodeId).isSome then
    (led, some (.newNodeAlreadyExists iNewNodeId))
  else
    let node1 : GNode α := { iNode with header := { iNode.header with
      Id := iNewNodeId, OwnerPublicKey := iNewOwnerPublicKey, CreatedTime := iTransferTime } }
    let node2 : GNode α := { node1 with header := { node1.header with
      NextNodeHashedIds := insertSet (hasherSum sha iNewNodeId) node1.header.NextNodeHashedIds,
      IsFinalized := true } }
    let node3 : GNode α := { node2 with header := { node2.header with
      PreviousNodeHashedIds := insertSet (hasherSum sha iNodeId) node2.header.PreviousNodeHashedIds } }
    match (Verify marshal parseKey rsaVerify sha iNewSignature node3).2 with
    | some e => (led, some e)
    | none =>
    match (Verify marshal parseKey rsaVerify sha iNewNodeSignature node3).2 with
    | some e => (led, some e)
    | none => ((led.put iNodeId node3).put iNewNodeId node3, none)

end GraphV1

namespace TokenHL

/-- The token record of the single-consumption ledger. -/
structure Token where
  Id : String
  ConsumingTokenId : String
  ConsumedTokenIds : List String
  RequestToAcceptUrl : String
  RequestToSendUrl : String
  OwnerPublicKey : String
deriving DecidableEq, Repr

/-- Error kinds of the token contract. -/
inductive TErr where
  | notFound (id : String)
  | alreadyConsumed (id : String)
deriving DecidableEq, Repr

/-- TokenContract.ConsumeToken: load the consumed token (NotFound if absent),
fail AlreadyConsumed when its ConsumingTokenId is already set, load the
consuming token (NotFound if absent); only when both policy endpoints are
non-empty, record the consumption on both in-memory copies and write both
(consumed first); otherwise return success without touching the store. -/
def ConsumeToken (led : Ledger Token) (consumedTokenId consumingTokenId : String) :
    Ledger Token × Option TErr :=
  match storeGet led.store consumedTokenId with
  | none => (led, some (.notFound consumedTokenId))
  | some consumedToken =>
  if consumedToken.ConsumingTokenId ≠ "" then (led, some (.alreadyConsumed consumedTokenId))
  else
  match storeGet led.store consumingTokenId with
  | none => (led, some (.notFound consumingTokenId))
  | some consumingToken =>
  if consumedToken.RequestToSendUrl ≠ "" ∧ consumingToken.RequestToAcceptUrl ≠ "" then
    let consumedToken2 := { consumedToken with ConsumingTokenId := consumingTokenId }
    let consumingToken2 := { consumingToken with
      ConsumedTokenIds := consumingToken.ConsumedTokenIds ++ [consumedTokenId] }
    ((led.put consumedTokenId consumedToken2).put consumingTokenId consumingToken2, none)
  else (led, none)

end TokenHL

namespace AssetDomain

/-- The Material payload of the asset package bundled with src/main.go: the
fields of Material beyond the embedded graph.NodeHeader. -/
structure MaterialData where
  Name : String
  Unit : String
  Quantity : String
deriving DecidableEq, Repr

/-- A Material is a graph node (NodeI) whose payload is the Material fields. -/
abbrev Material := GraphV1.GNode MaterialData

def MakeMaterial (iName iUnit iQuantity : String) (iHeader : GraphV1.NodeHeader) : Material :=
  ⟨iHeader, ⟨iName, iUnit, iQuantity⟩⟩

/-- The time-skew computation of the domain layer: the transaction timestamp's
seconds minus the caller-supplied Unix time, negated when negative. -/
def timeSkew (txSeconds unixTime : Int) : Int :=
  let timeDiff := txSeconds - unixTime
  if timeDiff < 0 then -timeDiff else timeDiff

/-- MaterialContract.CreateMaterial: parse the quantity string (abstracted as
newFromString, returning the canonical printed form), reject when the
caller-supplied created time differs from the transaction timestamp by more
than 3600 seconds, then build the Material and delegate to the engine's
CreateNode. -/
def CreateMaterial (newFromString : String → Option String)
    (marshal : Material → String) (parseKey : String → Option String)
    (rsaVerify : String → String → String → Bool) (sha : String → String)
    (txSeconds : Int) (led : Ledger Material)
    (iNodeId iName iUnit iQuantity iOwnerPublicKey : String)
    (iCreatedTime : Int) (iSignature : String) : Ledger Material × Option GErr :=
  match newFromString iQuantity with
  | none => (led, some .quantityParseError)
  | some q =>
    if 3600 < timeSkew txSeconds iCreatedTime then (led, some .timestampMismatch)
    else
      let nodeHeader := GraphV1.MakeNodeHeader iNodeId false [] [] iOwnerPublicKey iCreatedTime iSignature
      let material := MakeMaterial iName iUnit q nodeHeader
      GraphV1.CreateNode marshal parseKey rsaVerify sha led material

/-- MaterialContract.TransferMaterial: load the material (NotFound if absent),
reject when the transfer time differs from the transaction timestamp by more
than 3600 seconds, then delegate to the engine's TransferNodeOwnership with
the loaded record. -/
def TransferMaterial (marshal : Material → String) (parseKey : String → Option String)
    (rsaVerify : String → String → String → Bool) (sha : String → String)
    (txSeconds : Int) (led : Ledger Material)
    (iNodeId iNewNodeId iNewOwnerPublicKey iSignature iNewNodeSignature : String)
    (iTransferTime : Int) : Ledger Material × Option GErr :=
  match storeGet led.store iNodeId with
  | none => (led, some (.notFound iNodeId))
  | some material =>
    if 3600 < timeSkew txSeconds iTransferTime then (led, some .timestampMismatch)
    else
      GraphV1.TransferNodeOwnership marshal parseKey rsaVerify sha led iNodeId material
        iNewNodeId iTransferTime iNewOwnerPublicKey iSignature iNewNodeSignature

end AssetDomain

/-- Trivial instantiation of the abstract marshaller, for concrete runs. -/
def mockMarshal {ν : Type} : ν → String := fun _ => "node-json"

/-- Trivial instantiation of public-key parsing: every key parses to itself. -/
def mockParseKey : String → Option String := fun s => some s

/-- Trivial instantiation of RSA verification: accept everything. -/
def mockRsaVerify : String → String → String → Bool := fun _ _ _ => true

/-- Concrete stand-in for the one-shot SHA-512 digest, injective on inputs and
distinguishable from its arguments. -/
def mockSha : String → String := fun s => "H(" ++ s ++ ")"

/-- Concrete finalized node for the part_001 engine, used in witnesses. -/
def gnodeFinalA : GraphV1.GNode Unit := ⟨⟨"a", true, [], [], "key", 0, "sig"⟩, ()⟩

/-- Concrete unfinalized node for the part_001 engine, used in witnesses. -/
def gnodeFreshB : GraphV1.GNode Unit := ⟨⟨"b", false, [], [], "key", 0, "sig"⟩, ()⟩

/-- Concrete finalized node for the part_002 engine. -/
def nodeAFinalV2 : GraphV2.Node String := ⟨"a", true, "da", [], [], "key"⟩

/-- Concrete unfinalized nodes for the part_002 engine. -/
def nodeAV2 : GraphV2.Node String := ⟨"a", false, "da", [], [], "key"⟩

def nodeBV2 : GraphV2.Node String := ⟨"b", false, "db", [], [], "key"⟩

/-- Token with both policy endpoints set, not yet consumed. -/
def tokSendA : TokenHL.Token := ⟨"a", "", [], "acc", "send", "k"⟩

/-- Token with an empty RequestToSendUrl, not yet consumed. -/
def tokNoSendA : TokenHL.Token := ⟨"a", "", [], "acc", "", "k"⟩

/-- Token with both policy endpoints set, not yet consumed, id b. -/
def tokAcceptB : TokenHL.Token := ⟨"b", "", [], "acc", "send", "k"⟩

/-- Token whose ConsumingTokenId is already set. -/
def tokConsumedA : TokenHL.Token := ⟨"a", "b", [], "acc", "send", "k"⟩

/-- Concrete stored material record. -/
def sampleMaterial : AssetDomain.Material :=
  ⟨⟨"m", false, [], [], "key", 0, "sig"⟩, ⟨"iron", "kg", "5"⟩⟩

theorem storeGet_storePut_self {ν : Type} (st : List (String × ν)) (key : String) (v : ν) :
    storeGet (storePut st key v) key = some v := by
  induction st with
  | nil => simp [storePut, storeGet]
  | cons hd tl ih =>
    obtain ⟨k, w⟩ := hd
    by_cases h : k = key
    · subst h; simp [storePut, storeGet]
    · simp [storePut, storeGet, h, ih]

theorem storeGet_storePut_other {ν : Type} (st : List (String × ν)) (key other : String)
    (v : ν) (h : other ≠ key) : storeGet (storePut st key v) other = storeGet st other := by
  induction st with
  | nil => simp [storePut, storeGet, h.symm]
  | cons hd tl ih =>
    obtain ⟨k, w⟩ := hd
    by_cases hk : k = key
    · subst hk; simp [storePut, storeGet, h.symm]
    · by_cases ho : k = other
      · subst ho; simp [storePut, storeGet, hk]
      · simp [storePut, storeGet, hk, ho, ih]

/-- C9 (confirmed): GraphContract.Verify over the NodeI interface leaves the
node it is given unchanged upon return, on the success path and on every
failure path: the Signature field is blanked only for the canonical
serialization and the original header is restored before Verify returns. -/
theorem c9_verify_preserves_node {α : Type} (marshal : GraphV1.GNode α → String)
    (parseKey : String → Option String) (rsaVerify : String → String → String → Bool)
    (sha : String → String) (iSignature : String) (iNode : GraphV1.GNode α) :
    (GraphV1.Verify marshal parseKey rsaVerify sha iSignature iNode).1 = iNode := by
  unfold GraphV1.Verify
  dsimp only
  split
  · rfl
  · split <;> rfl

/-- C2 (code bug evidence): the part_002 TransferNodeOwnership returns without
a single PutState on every path, success included, so the ledger (store and
write log) it returns is exactly the input ledger — contradicting the claimed
write of both the updated old node and the new node. -/
theorem c2_transferV2_never_writes {α : Type} (marshal : GraphV2.Node α → String)
    (parseKey : String → Option String) (rsaVerify : String → String → String → Bool)
    (sha : String → String) (led : Ledger (GraphV2.Node α))
    (iNodeId iNewNodeId iNewOwnerPublicKey iSignature iNewNodeSignature : String) :
    (GraphV2.TransferNodeOwnership marshal parseKey rsaVerify sha led iNodeId iNewNodeId
      iNewOwnerPublicKey iSignature iNewNodeSignature).1 = led := by
  unfold GraphV2.TransferNodeOwnership
  split
  · rfl
  · split
    · rfl
    · dsimp only
      split
      · rfl
      · split <;> rfl

/-- C5 (confirmed): for existing, not-yet-consumed tokens, when the consumed
token's RequestToSendUrl is empty or the consuming token's RequestToAcceptUrl
is empty, ConsumeToken returns success and leaves the ledger (store and write
log) entirely unchanged. -/
theorem c5_consume_silent_noop (st wlog : List (String × TokenHL.Token))
    (consumedTokenId consumingTokenId : String) (consumedToken consumingToken : TokenHL.Token)
    (hc : storeGet st consumedTokenId = some consumedToken)
    (hg : storeGet st consumingTokenId = some consumingToken)
    (hfresh1 : consumedToken.ConsumingTokenId = "")
    (hfresh2 : consumingToken.ConsumingTokenId = "")
    (hpol : consumedToken.RequestToSendUrl = "" ∨ consumingToken.RequestToAcceptUrl = "") :
    TokenHL.ConsumeToken ⟨st, wlog⟩ consumedTokenId consumingTokenId = (⟨st, wlog⟩, none) := by
  have hcond : ¬(consumedToken.RequestToSendUrl ≠ "" ∧ consumingToken.RequestToAcceptUrl ≠ "") := by
    rcases hpol with h | h <;> simp [h]
  simp [TokenHL.ConsumeToken, hc, hg, hfresh1, hcond]

/-- Witness for C5 at a concrete input. -/
theorem c5_consume_silent_noop_witness :
    TokenHL.ConsumeToken ⟨[("a", tokNoSendA), ("b", tokAcceptB)], []⟩ "a" "b"
      = (⟨[("a", tokNoSendA), ("b", tokAcceptB)], []⟩, none) :=
  c5_consume_silent_noop [("a", tokNoSendA), ("b", tokAcceptB)] [] "a" "b" tokNoSendA tokAcceptB
    (by decide) (by decide) (by decide) (by decide) (Or.inl (by decide))

/-- C10 (confirmed): when the consumed token exists with a non-empty
ConsumingTokenId and the consuming token does not exist, ConsumeToken fails
AlreadyConsumed, not NotFound: the AlreadyConsumed check runs before the
consuming token is loaded. -/
theorem c10_alreadyConsumed_checked_first (st wlog : List (String × TokenHL.Token))
    (consumedTokenId consumingTokenId : String) (t : TokenHL.Token)
    (hc : storeGet st consumedTokenId = some t) (hset : t.ConsumingTokenId ≠ "")
    (hmiss : storeGet st consumingTokenId = none) :
    TokenHL.ConsumeToken ⟨st, wlog⟩ consumedTokenId consumingTokenId
      = (⟨st, wlog⟩, some (.alreadyConsumed consumedTokenId)) := by
  simp [TokenHL.ConsumeToken, hc, hset]

/-- Witness for C10 at a concrete input. -/
theorem c10_alreadyConsumed_checked_first_witness :
    TokenHL.ConsumeToken ⟨[("a", tokConsumedA)], []⟩ "a" "zz"
      = (⟨[("a", tokConsumedA)], []⟩, some (TokenHL.TErr.alreadyConsumed "a")) :=
  c10_alreadyConsumed_checked_first [("a", tokConsumedA)] [] "a" "zz" tokConsumedA
    (by decide) (by decide) (by decide)

/-- C1 (amended): in the part_001 engine, CreateEdge on an already-finalized
endpoint fails with the corresponding already-finalized error and performs no
store write: first conjunct for a finalized first endpoint, second conjunct
for a finalized next endpoint. -/
theorem c1_createEdgeV1_rejects_finalized {α : Type} (marshal : GraphV1.GNode α → String)
    (parseKey : String → Option String) (rsaVerify : String → String → String → Bool)
    (sha : String → String) (st wlog : List (String × GraphV1.GNode α))
    (iNodeId iNewSignature iNextNodeId iNextNodeNewSignature : String) :
    (∀ node : GraphV1.GNode α, storeGet st iNodeId = some node →
      node.header.IsFinalized = true →
      GraphV1.CreateEdge marshal parseKey rsaVerify sha ⟨st, wlog⟩ iNodeId iNewSignature
        iNextNodeId iNextNodeNewSignature = (⟨st, wlog⟩, some GErr.nodeIsAlreadyFinalized)) ∧
    (∀ node nextNode : GraphV1.GNode α, storeGet st iNodeId = some node →
      node.header.IsFinalized = false → storeGet st iNextNodeId = some nextNode →
      nextNode.header.IsFinalized = true →
      GraphV1.CreateEdge marshal parseKey rsaVerify sha ⟨st, wlog⟩ iNodeId iNewSignature
        iNextNodeId iNextNodeNewSignature = (⟨st, wlog⟩, some GErr.nextNodeIsAlreadyFinalized)) := by
  constructor
  · intro node hget hfin
    simp [GraphV1.CreateEdge, hget, hfin]
  · intro node nextNode hget hfin hnext hnextfin
    simp [GraphV1.CreateEdge, hget, hfin, hnext, hnextfin]

/-- Witness for C1 at a concrete input: an edge from a finalized node is
rejected without mutation. -/
theorem c1_createEdgeV1_rejects_finalized_witness :
    GraphV1.CreateEdge mockMarshal mockParseKey mockRsaVerify mockSha
      ⟨[("a", gnodeFinalA), ("b", gnodeFreshB)], []⟩ "a" "sa" "b" "sb"
      = (⟨[("a", gnodeFinalA), ("b", gnodeFreshB)], []⟩, some GErr.nodeIsAlreadyFinalized) :=
  (c1_createEdgeV1_rejects_finalized mockMarshal mockParseKey mockRsaVerify mockSha
    [("a", gnodeFinalA), ("b", gnodeFreshB)] [] "a" "sa" "b" "sb").1 gnodeFinalA
    (by decide) (by decide)

/-- C1 counterexample: FinalizeNode (part_002) invoked on a node whose stored
record already has IsFinalized = true does not fail AlreadyFinalized: with an
accepting verifier it succeeds and rewrites the record. -/
theorem c1_finalizeV2_refinalizes :
    (GraphV2.FinalizeNode mockMarshal mockParseKey mockRsaVerify mockSha
      ⟨[("a", nodeAFinalV2)], []⟩ "a" "sig").2 = none ∧
    (GraphV2.FinalizeNode mockMarshal mockParseKey mockRsaVerify mockSha
      ⟨[("a", nodeAFinalV2)], []⟩ "a" "sig").1.writes = [("a", nodeAFinalV2)] := by
  decide

/-- C4 (amended): after a ConsumeToken success that actually recorded the
consumption (both policy endpoints non-empty, distinct ids, non-empty
consuming id), every later ConsumeToken on the same consumedId fails
AlreadyConsumed regardless of the new consumingId, and writes nothing. -/
theorem c4_second_consume_fails (st wlog : List (String × TokenHL.Token))
    (a b : String) (consumedToken consumingToken : TokenHL.Token)
    (ha : storeGet st a = some consumedToken) (hb : storeGet st b = some consumingToken)
    (hfresh : consumedToken.ConsumingTokenId = "")
    (hsend : consumedToken.RequestToSendUrl ≠ "")
    (hacc : consumingToken.RequestToAcceptUrl ≠ "")
    (hab : a ≠ b) (hbne : b ≠ "") :
    (TokenHL.ConsumeToken ⟨st, wlog⟩ a b).2 = none ∧
    ∀ c : String,
      TokenHL.ConsumeToken (TokenHL.ConsumeToken ⟨st, wlog⟩ a b).1 a c
        = ((TokenHL.ConsumeToken ⟨st, wlog⟩ a b).1, some (.alreadyConsumed a)) := by
  have h1 : TokenHL.ConsumeToken ⟨st, wlog⟩ a b
      = (((⟨st, wlog⟩ : Ledger TokenHL.Token).put a
            { consumedToken with ConsumingTokenId := b }).put b
          { consumingToken with
            ConsumedTokenIds := consumingToken.ConsumedTokenIds ++ [a] }, none) := by
    simp [TokenHL.ConsumeToken, ha, hb, hfresh, hsend, hacc]
  constructor
  · rw [h1]
  · intro c
    rw [h1]
    have hget : storeGet ((((⟨st, wlog⟩ : Ledger TokenHL.Token).put a
          { consumedToken with ConsumingTokenId := b }).put b
            { consumingToken with
              ConsumedTokenIds := consumingToken.ConsumedTokenIds ++ [a] }).store) a
        = some { consumedToken with ConsumingTokenId := b } := by
      dsimp [Ledger.put]
      rw [storeGet_storePut_other _ _ _ _ hab, storeGet_storePut_self]
    simp [TokenHL.ConsumeToken, hget, hbne]

/-- Witness for C4 at a concrete input. -/
theorem c4_second_consume_fails_witness :
    (TokenHL.ConsumeToken ⟨[("a", tokSendA), ("b", tokAcceptB)], []⟩ "a" "b").2 = none ∧
    TokenHL.ConsumeToken
        (TokenHL.ConsumeToken ⟨[("a", tokSendA), ("b", tokAcceptB)], []⟩ "a" "b").1 "a" "zz"
      = ((TokenHL.ConsumeToken ⟨[("a", tokSendA), ("b", tokAcceptB)], []⟩ "a" "b").1,
          some (TokenHL.TErr.alreadyConsumed "a")) := by
  have h := c4_second_consume_fails [("a", tokSendA), ("b", tokAcceptB)] [] "a" "b"
    tokSendA tokAcceptB (by decide) (by decide) (by decide) (by decide) (by decide)
    (by decide) (by decide)
  exact ⟨h.1, h.2 "zz"⟩

/-- C4 counterexample: a first ConsumeToken that returns success through the
silent no-op path (empty RequestToSendUrl on the consumed token) does not
protect the token: a second identical call succeeds again instead of failing
AlreadyConsumed. -/
theorem c4_silent_success_not_sticky :
    (TokenHL.ConsumeToken ⟨[("a", tokNoSendA), ("b", tokAcceptB)], []⟩ "a" "b").2 = none ∧
    (TokenHL.ConsumeToken
      (TokenHL.ConsumeToken ⟨[("a", tokNoSendA), ("b", tokAcceptB)], []⟩ "a" "b").1 "a" "b").2
      = none := by
  decide

/-- C3 (code bug evidence): the link entry CreateEdge (part_002) stores is the
raw referenced id concatenated with the digest of the empty string (the result
of hasher.Sum on a fresh hasher), not the digest of the id: the stored set
entry both contains the raw id and differs from the one-shot digest. -/
theorem c3_rawId_stored_in_links :
    storeGet (GraphV2.CreateEdge mockMarshal mockParseKey mockRsaVerify mockSha
        ⟨[("a", nodeAV2), ("b", nodeBV2)], []⟩ "a" "b" "sa" "sb").1.store "a"
      = some { nodeAV2 with NextNodeHashedIds := ["b" ++ mockSha ""] } ∧
    "b" ++ mockSha "" ≠ mockSha "b" ∧
    "b" ++ mockSha "" = "bH()" := by
  decide

/-- C7 (amended): a CreateReferencedNodesAndFinalize call whose parallel
arrays disagree in length performs no store write; with the parent id present
it fails with one of the two arity-mismatch errors, with the parent absent it
fails NotFound (the existence check runs first). -/
theorem c7_arity_mismatch_no_write {α : Type} (marshal : GraphV2.Node α → String)
    (parseKey : String → Option String) (rsaVerify : String → String → String → Bool)
    (sha : String → String) (st : List (String × GraphV2.Node α)) (iNodeId : String)
    (iNewNodeIds : List String) (iData : List α) (iOwnerPublicKey : List String)
    (iSignature : String) (iNewPublicKey : List String)
    (hm : ¬(iNewNodeIds.length = iData.length ∧ iData.length = iOwnerPublicKey.length)) :
    (∀ node : GraphV2.Node α, storeGet st iNodeId = some node →
      GraphV2.CreateReferencedNodesAndFinalize marshal parseKey rsaVerify sha ⟨st, []⟩ iNodeId
          iNewNodeIds iData iOwnerPublicKey iSignature iNewPublicKey
        = (⟨st, []⟩, some GErr.mismatchDataAndNodeIds) ∨
      GraphV2.CreateReferencedNodesAndFinalize marshal parseKey rsaVerify sha ⟨st, []⟩ iNodeId
          iNewNodeIds iData iOwnerPublicKey iSignature iNewPublicKey
        = (⟨st, []⟩, some GErr.mismatchDataAndOwnerKey)) ∧
    (storeGet st iNodeId = none →
      GraphV2.CreateReferencedNodesAndFinalize marshal parseKey rsaVerify sha ⟨st, []⟩ iNodeId
          iNewNodeIds iData iOwnerPublicKey iSignature iNewPublicKey
        = (⟨st, []⟩, some (GErr.notFound iNodeId))) := by
  constructor
  · intro node hget
    by_cases h1 : iNewNodeIds.length = iData.length
    · right
      have h2 : iData.length ≠ iOwnerPublicKey.length := fun h2 => hm ⟨h1, h2⟩
      simp [GraphV2.CreateReferencedNodesAndFinalize, hget, h1, h2]
    · left
      simp [GraphV2.CreateReferencedNodesAndFinalize, hget, h1]
  · intro hget
    simp [GraphV2.CreateReferencedNodesAndFinalize, hget]

/-- Witness for C7 at a concrete input: three ids against two payloads. -/
theorem c7_arity_mismatch_no_write_witness :
    GraphV2.CreateReferencedNodesAndFinalize mockMarshal mockParseKey mockRsaVerify mockSha
        ⟨[("p", nodeAV2)], []⟩ "p" ["a", "b", "cc"] ["d1", "d2"] ["k1", "k2"] "sig" []
      = (⟨[("p", nodeAV2)], []⟩, some GErr.mismatchDataAndNodeIds) ∨
    GraphV2.CreateReferencedNodesAndFinalize mockMarshal mockParseKey mockRsaVerify mockSha
        ⟨[("p", nodeAV2)], []⟩ "p" ["a", "b", "cc"] ["d1", "d2"] ["k1", "k2"] "sig" []
      = (⟨[("p", nodeAV2)], []⟩, some GErr.mismatchDataAndOwnerKey) :=
  (c7_arity_mismatch_no_write mockMarshal mockParseKey mockRsaVerify mockSha
    [("p", nodeAV2)] "p" ["a", "b", "cc"] ["d1", "d2"] ["k1", "k2"] "sig" []
    (by decide)).1 nodeAV2 (by decide)

/-- C7 counterexample: with the parent id absent, a call with mismatched
array lengths fails NotFound, not with an arity-mismatch error (and the
mismatch error the claim requires is therefore not produced for every
mismatched call). -/
theorem c7_absent_parent_notFound :
    GraphV2.CreateReferencedNodesAndFinalize (α := String) mockMarshal mockParseKey mockRsaVerify
        mockSha ⟨[], []⟩ "p" ["a", "b", "cc"] ["d1", "d2"] ["k1", "k2"] "sig" []
      = (⟨[], []⟩, some (GErr.notFound "p")) := by
  decide

theorem mem_zip3_fst {α β γ : Type} :
    ∀ (l1 : List α) (l2 : List β) (l3 : List γ) (x : α),
      x ∈ (zip3 l1 l2 l3).map (fun t => t.1) → x ∈ l1 := by
  intro l1
  induction l1 with
  | nil => intro l2 l3 x hx; simp [zip3] at hx
  | cons hd tl ih =>
    intro l2 l3 x hx
    cases l2 with
    | nil => simp [zip3] at hx
    | cons hd2 tl2 =>
      cases l3 with
      | nil => simp [zip3] at hx
      | cons hd3 tl3 =>
        simp only [zip3, List.map_cons, List.mem_cons] at hx
        rcases hx with rfl | hx
        · exact List.mem_cons_self _ _
        · exact List.mem_cons_of_mem _ (ih tl2 tl3 x hx)

theorem createChildren_writes {α : Type} (children : List (String × α × String)) :
    ∀ (led : Ledger (GraphV2.Node α)) (oldNodeHash : String),
      ∃ extra, (GraphV2.createChildren led oldNodeHash children).1.writes = led.writes ++ extra ∧
        ∀ w ∈ extra, w.1 ∈ children.map (fun t => t.1) := by
  induction children with
  | nil =>
    intro led oldNodeHash
    exact ⟨[], by simp [GraphV2.createChildren], by simp⟩
  | cons child rest ih =>
    intro led oldNodeHash
    obtain ⟨id, data, key⟩ := child
    by_cases hex : (storeGet led.store id).isSome
    · exact ⟨[], by simp [GraphV2.createChildren, hex], by simp⟩
    · obtain ⟨extra, heq, hmem⟩ :=
        ih (led.put id ⟨id, false, data, [], [oldNodeHash], key⟩) oldNodeHash
      refine ⟨(id, ⟨id, false, data, [], [oldNodeHash], key⟩) :: extra, ?_, ?_⟩
      · have hstep : GraphV2.createChildren led oldNodeHash ((id, data, key) :: rest)
            = GraphV2.createChildren (led.put id ⟨id, false, data, [], [oldNodeHash], key⟩)
                oldNodeHash rest := by
          simp [GraphV2.createChildren, hex]
        rw [hstep, heq]
        simp [Ledger.put]
      · intro w hw
        rcases List.mem_cons.mp hw with rfl | hw
        · simp
        · have := hmem w hw
          simp only [List.map_cons, List.mem_cons]
          right
          simpa using this

/-- C6 (confirmed): in every execution of CreateReferencedNodesAndFinalize
(part_002) that performs at least one store write, the very first write is the
finalized parent record and every further write is to one of the new child
ids, so the parent write precedes every child write. -/
theorem c6_parent_write_first {α : Type} (marshal : GraphV2.Node α → String)
    (parseKey : String → Option String) (rsaVerify : String → String → String → Bool)
    (sha : String → String) (st : List (String × GraphV2.Node α)) (iNodeId : String)
    (iNewNodeIds : List String) (iData : List α) (iOwnerPublicKey : List String)
    (iSignature : String) (iNewPublicKey : List String) :
    (GraphV2.CreateReferencedNodesAndFinalize marshal parseKey rsaVerify sha ⟨st, []⟩ iNodeId
        iNewNodeIds iData iOwnerPublicKey iSignature iNewPublicKey).1.writes = [] ∨
      ∃ parent rest,
        (GraphV2.CreateReferencedNodesAndFinalize marshal parseKey rsaVerify sha ⟨st, []⟩ iNodeId
            iNewNodeIds iData iOwnerPublicKey iSignature iNewPublicKey).1.writes
          = (parent.Id, parent) :: rest ∧
        parent.IsFinalized = true ∧ ∀ w ∈ rest, w.1 ∈ iNewNodeIds := by
  cases hget : storeGet st iNodeId with
  | none =>
    left
    simp [GraphV2.CreateReferencedNodesAndFinalize, hget]
  | some node =>
    by_cases h1 : iNewNodeIds.length ≠ iData.length
    · left; simp [GraphV2.CreateReferencedNodesAndFinalize, hget, h1]
    · by_cases h2 : iData.length ≠ iOwnerPublicKey.length
      · left; simp [GraphV2.CreateReferencedNodesAndFinalize, hget, h1, h2]
      · by_cases h3 : node.IsFinalized
        · left; simp [GraphV2.CreateReferencedNodesAndFinalize, hget, h1, h2, h3]
        · cases hv : GraphV2.NodeVerify marshal parseKey rsaVerify sha
              { node with
                NextNodeHashedIds :=
                  iNewNodeIds.foldl (fun s id => insertSet (sha id) s) node.NextNodeHashedIds,
                IsFinalized := true } iSignature with
          | some e =>
            left
            simp [GraphV2.CreateReferencedNodesAndFinalize, hget, h1, h2, h3, hv]
          | none =>
            right
            obtain ⟨extra, heq, hmem⟩ := createChildren_writes
              (zip3 iNewNodeIds iData iOwnerPublicKey)
              ((⟨st, []⟩ : Ledger (GraphV2.Node α)).put
                ({ node with
                  NextNodeHashedIds :=
                    iNewNodeIds.foldl (fun s id => insertSet (sha id) s) node.NextNodeHashedIds,
                  IsFinalized := true } : GraphV2.Node α).Id
                { node with
                  NextNodeHashedIds :=
                    iNewNodeIds.foldl (fun s id => insertSet (sha id) s) node.NextNodeHashedIds,
                  IsFinalized := true })
              (sha ({ node with
                  NextNodeHashedIds :=
                    iNewNodeIds.foldl (fun s id => insertSet (sha id) s) node.NextNodeHashedIds,
                  IsFinalized := true } : GraphV2.Node α).Id)
            refine ⟨{ node with
                NextNodeHashedIds :=
                  iNewNodeIds.foldl (fun s id => insertSet (sha id) s) node.NextNodeHashedIds,
                IsFinalized := true }, extra, ?_, rfl, ?_⟩
            · have hrun : (GraphV2.CreateReferencedNodesAndFinalize marshal parseKey rsaVerify sha
                  ⟨st, []⟩ iNodeId iNewNodeIds iData iOwnerPublicKey iSignature
                  iNewPublicKey).1.writes
                  = (GraphV2.createChildren
                      ((⟨st, []⟩ : Ledger (GraphV2.Node α)).put
                        ({ node with
                          NextNodeHashedIds :=
                            iNewNodeIds.foldl (fun s id => insertSet (sha id) s)
                              node.NextNodeHashedIds,
                          IsFinalized := true } : GraphV2.Node α).Id
                        { node with
                          NextNodeHashedIds :=
                            iNewNodeIds.foldl (fun s id => insertSet (sha id) s)
                              node.NextNodeHashedIds,
                          IsFinalized := true })
                      (sha ({ node with
                          NextNodeHashedIds :=
                            iNewNodeIds.foldl (fun s id => insertSet (sha id) s)
                              node.NextNodeHashedIds,
                          IsFinalized := true } : GraphV2.Node α).Id)
                      (zip3 iNewNodeIds iData iOwnerPublicKey)).1.writes := by
                simp [GraphV2.CreateReferencedNodesAndFinalize, hget, h1, h2, h3, hv]
              rw [hrun, heq]
              simp [Ledger.put]
            · intro w hw
              exact mem_zip3_fst _ _ _ _ (hmem w hw)

theorem verifyV1_no_timestamp_err {α : Type} (marshal : GraphV1.GNode α → String)
    (parseKey : String → Option String) (rsaVerify : String → String → String → Bool)
    (sha : String → String) (iSignature : String) (iNode : GraphV1.GNode α) :
    (GraphV1.Verify marshal parseKey rsaVerify sha iSignature iNode).2
      ≠ some GErr.timestampMismatch := by
  unfold GraphV1.Verify
  dsimp only
  split
  · simp
  · split <;> simp

theorem createNodeV1_no_timestamp_err {α : Type} (marshal : GraphV1.GNode α → String)
    (parseKey : String → Option String) (rsaVerify : String → String → String → Bool)
    (sha : String → String) (led : Ledger (GraphV1.GNode α)) (iNode : GraphV1.GNode α) :
    (GraphV1.CreateNode marshal parseKey rsaVerify sha led iNode).2
      ≠ some GErr.timestampMismatch := by
  unfold GraphV1.CreateNode
  split
  · simp
  · split
    · next e heq =>
        have hv := verifyV1_no_timestamp_err marshal parseKey rsaVerify sha
          iNode.header.Signature iNode
        rw [heq] at hv
        simpa using hv
    · simp

theorem transferV1_no_timestamp_err {α : Type} (marshal : GraphV1.GNode α → String)
    (parseKey : String → Option String) (rsaVerify : String → String → String → Bool)
    (sha : String → String) (led : Ledger (GraphV1.GNode α)) (iNodeId : String)
    (iNode : GraphV1.GNode α) (iNewNodeId : String) (iTransferTime : Int)
    (iNewOwnerPublicKey iNewSignature iNewNodeSignature : String) :
    (GraphV1.TransferNodeOwnership marshal parseKey rsaVerify sha led iNodeId iNode iNewNodeId
      iTransferTime iNewOwnerPublicKey iNewSignature iNewNodeSignature).2
      ≠ some GErr.timestampMismatch := by
  unfold GraphV1.TransferNodeOwnership
  split
  · simp
  · split
    · simp
    · dsimp only
      split
      · next e heq =>
          intro hc
          have he : e = GErr.timestampMismatch := by simpa using hc
          exact verifyV1_no_timestamp_err marshal parseKey rsaVerify sha iNewSignature _
            (heq.trans (by rw [he]))
      · split
        · next e heq =>
            intro hc
            have he : e = GErr.timestampMismatch := by simpa using hc
            exact verifyV1_no_timestamp_err marshal parseKey rsaVerify sha iNewNodeSignature _
              (heq.trans (by rw [he]))
        · simp

theorem timeSkew_eq_abs (a b : Int) : AssetDomain.timeSkew a b = |a - b| := by
  unfold AssetDomain.timeSkew
  dsimp only
  rcases lt_or_le (a - b) 0 with h | h
  · rw [if_pos h, abs_of_neg h]
  · rw [if_neg (not_lt.mpr h), abs_of_nonneg h]

/-- C8 (confirmed): the domain layer returns the timestamp-mismatch rejection
exactly when the absolute difference between the caller-supplied time and the
transaction timestamp exceeds 3600 seconds (given that the earlier steps of
the call succeed: the quantity parses for CreateMaterial, the old node exists
for TransferMaterial), and in that case the ledger is returned unchanged, so
no engine operation runs and no store write occurs.  First conjunct:
CreateMaterial; second conjunct: TransferMaterial. -/
theorem c8_time_skew_guard (newFromString : String → Option String)
    (marshal : AssetDomain.Material → String) (parseKey : String → Option String)
    (rsaVerify : String → String → String → Bool) (sha : String → String)
    (txSeconds : Int) (st wlog : List (String × AssetDomain.Material))
    (iNodeId iName iUnit iQuantity iOwnerPublicKey : String)
    (iCreatedTime : Int) (iSignature : String)
    (tNodeId tNewNodeId tNewOwnerPublicKey tSignature tNewNodeSignature : String)
    (iTransferTime : Int) (q : String) (material : AssetDomain.Material)
    (hq : newFromString iQuantity = some q)
    (hmat : storeGet st tNodeId = some material) :
    (((AssetDomain.CreateMaterial newFromString marshal parseKey rsaVerify sha txSeconds
          ⟨st, wlog⟩ iNodeId iName iUnit iQuantity iOwnerPublicKey iCreatedTime iSignature).2
        = some GErr.timestampMismatch ↔ 3600 < |txSeconds - iCreatedTime|) ∧
      (3600 < |txSeconds - iCreatedTime| →
        AssetDomain.CreateMaterial newFromString marshal parseKey rsaVerify sha txSeconds
            ⟨st, wlog⟩ iNodeId iName iUnit iQuantity iOwnerPublicKey iCreatedTime iSignature
          = (⟨st, wlog⟩, some GErr.timestampMismatch))) ∧
    (((AssetDomain.TransferMaterial marshal parseKey rsaVerify sha txSeconds ⟨st, wlog⟩
          tNodeId tNewNodeId tNewOwnerPublicKey tSignature tNewNodeSignature iTransferTime).2
        = some GErr.timestampMismatch ↔ 3600 < |txSeconds - iTransferTime|) ∧
      (3600 < |txSeconds - iTransferTime| →
        AssetDomain.TransferMaterial marshal parseKey rsaVerify sha txSeconds ⟨st, wlog⟩
            tNodeId tNewNodeId tNewOwnerPublicKey tSignature tNewNodeSignature iTransferTime
          = (⟨st, wlog⟩, some GErr.timestampMismatch))) := by
  constructor
  · by_cases hgt : 3600 < |txSeconds - iCreatedTime|
    · have hcond : 3600 < AssetDomain.timeSkew txSeconds iCreatedTime := by
        rw [timeSkew_eq_abs]; exact hgt
      constructor
      · simp [AssetDomain.CreateMaterial, hq, hcond, hgt]
      · intro _
        simp [AssetDomain.CreateMaterial, hq, hcond]
    · have hcond : ¬(3600 < AssetDomain.timeSkew txSeconds iCreatedTime) := by
        rw [timeSkew_eq_abs]; exact hgt
      constructor
      · simp only [AssetDomain.CreateMaterial, hq, if_neg hcond]
        constructor
        · intro hc
          exact absurd hc (createNodeV1_no_timestamp_err marshal parseKey rsaVerify sha
            ⟨st, wlog⟩ _)
        · intro hc
          exact absurd hc hgt
      · intro hc
        exact absurd hc hgt
  · by_cases hgt : 3600 < |txSeconds - iTransferTime|
    · have hcond : 3600 < AssetDomain.timeSkew txSeconds iTransferTime := by
        rw [timeSkew_eq_abs]; exact hgt
      constructor
      · simp [AssetDomain.TransferMaterial, hmat, hcond, hgt]
      · intro _
        simp [AssetDomain.TransferMaterial, hmat, hcond]
    · have hcond : ¬(3600 < AssetDomain.timeSkew txSeconds iTransferTime) := by
        rw [timeSkew_eq_abs]; exact hgt
      constructor
      · simp only [AssetDomain.TransferMaterial, hmat, if_neg hcond]
        constructor
        · intro hc
          exact absurd hc (transferV1_no_timestamp_err marshal parseKey rsaVerify sha
            ⟨st, wlog⟩ tNodeId material tNewNodeId iTransferTime tNewOwnerPublicKey
            tSignature tNewNodeSignature)
        · intro hc
          exact absurd hc hgt
      · intro hc
        exact absurd hc hgt

/-- Witness for C8 at a concrete input: a caller time 10000 seconds away from
the transaction time is rejected by both operations without any write. -/
theorem c8_time_skew_guard_witness :
    AssetDomain.CreateMaterial (fun s => some s) mockMarshal mockParseKey mockRsaVerify mockSha 0
        ⟨[("m", sampleMaterial)], []⟩ "n" "iron" "kg" "5" "key" 10000 "sig"
      = (⟨[("m", sampleMaterial)], []⟩, some GErr.timestampMismatch) ∧
    AssetDomain.TransferMaterial mockMarshal mockParseKey mockRsaVerify mockSha 0
        ⟨[("m", sampleMaterial)], []⟩ "m" "n" "key2" "s1" "s2" 10000
      = (⟨[("m", sampleMaterial)], []⟩, some GErr.timestampMismatch) := by
  have h := c8_time_skew_guard (fun s => some s) mockMarshal mockParseKey mockRsaVerify mockSha 0
    [("m", sampleMaterial)] [] "n" "iron" "kg" "5" "key" 10000 "sig" "m" "n" "key2" "s1" "s2"
    10000 "5" sampleMaterial rfl (by decide)
  exact ⟨h.1.2 (by decide), h.2.2 (by decide)⟩
